import Mathlib

/-!
Shallow embedding of the `pgmodel` Go package (`src/pgmodel.go`) and proofs
about its SQL template synthesis and value marshaling.

The package exposes the `PGModel` interface and four free functions
(`Get`, `GetMany`, `Save`, `Delete`) that synthesize parameterized SQL
strings from the metadata a record exposes and hand them, together with an
ordered parameter list, to a transaction executor.  Only the logic original
to the package is embedded: query-string construction, value marshaling
(`convertVariable` / `convertVariables`), parameter-list assembly, and the
reflection step at the top of `GetMany`.  The external executor
(`t.Query` / `t.QueryOne`) is out of scope; each operation is modelled as
the pair (SQL text, parameter list) it would pass to the executor, or as a
panic when the Go code panics before reaching the executor.
-/

namespace Pgmodel

/-- A dynamically typed Go value (`interface\x7b\x7d`), restricted to the kinds the
package distinguishes.  `vnil` is the nil interface value (no dynamic type);
`slice` is any slice-kinded value; the remaining constructors are
representative non-slice (scalar) kinds. -/
inductive GoValue where
  | vnil : GoValue
  | str : String → GoValue
  | int : Int → GoValue
  | bool : Bool → GoValue
  | slice : List GoValue → GoValue

/-- The reflection kinds (`reflect.Kind`) relevant to `convertVariable`:
its switch distinguishes `reflect.Slice` from every other kind. -/
inductive GoKind where
  | slice : GoKind
  | string : GoKind
  | int : GoKind
  | bool : GoKind
deriving DecidableEq

/-- `reflect.TypeOf(v).Kind()` for a value `v`.  `reflect.TypeOf` returns the
nil `reflect.Type` for the nil interface value, and calling `Kind()` on it
panics; this is modelled as `none`. -/
def reflectKind : GoValue → Option GoKind
  | .vnil => none
  | .str _ => some .string
  | .int _ => some .int
  | .bool _ => some .bool
  | .slice _ => some .slice

/-- The `PGModel` interface: a record descriptor.  Each field embeds the
method of the same name from `src/pgmodel.go`. -/
structure PGModel where
  PrimaryKey : String
  PrimaryKeyValue : GoValue
  SchemaName : String
  TableName : String
  ColumnCount : Int
  NonPKColumns : List String
  NonPKValues : List GoValue
  ConvertSlice : String → String

/-- Go's `strings.Join(elems, sep)`: empty string on the empty list, and the
elements interleaved with `sep` otherwise. -/
def goJoin (sep : String) : List String → String
  | [] => ""
  | [x] => x
  | x :: y :: xs => x ++ sep ++ goJoin sep (y :: xs)

/-- `createGetQuery(pm, queryKey, queryValue)`: the Go raw string literal
spans two source lines, so the text contains a newline followed by the two
tabs that indent the second line.  `queryValue` is accepted and ignored,
exactly as in the Go signature. -/
def createGetQuery (pm : PGModel) (queryKey : String) (_queryValue : GoValue) : String :=
  "SELECT * FROM " ++ pm.SchemaName ++ "." ++ pm.TableName ++
    "\n\t\tWHERE " ++ queryKey ++ " = ?"

/-- The number of iterations of `createSaveQuery`'s loop
`for i := 0; i < cc-1; i++`: zero when `cc ≤ 1`. -/
def saveLoopLen (pm : PGModel) : Nat := (pm.ColumnCount - 1).toNat

/-- The `im` slice of `createSaveQuery`: one `"?"` appended before the loop
and one more per iteration. -/
def saveInsertMarks (pm : PGModel) : List String :=
  "?" :: List.replicate (saveLoopLen pm) "?"

/-- The `sm` slice of `createSaveQuery`: iteration `i` appends
`fmt.Sprintf("%s = ?", npkc[i])`.  Inside `createSaveQuery` the guard
ensures every index is in bounds, so `getD` never takes its default. -/
def saveSetMarks (pm : PGModel) : List String :=
  (List.range (saveLoopLen pm)).map (fun i => pm.NonPKColumns.getD i "" ++ " = ?")

/-- `createSaveQuery(pm)`.  The loop reads `npkc[i]` for every
`i < cc-1`; Go panics with index-out-of-range when `cc-1` exceeds
`len(npkc)`, modelled as `none`.  Otherwise the result is the Go raw
string literal with its interpolations: the literal's first three lines
and its `SET` line end in a space before the newline, and every
continuation line starts with the two tabs that indent it in the source. -/
def createSaveQuery (pm : PGModel) : Option String :=
  if saveLoopLen pm ≤ pm.NonPKColumns.length then
    some ("INSERT INTO " ++ pm.SchemaName ++ "." ++ pm.TableName ++ " (" ++
      goJoin ", " (pm.PrimaryKey :: pm.NonPKColumns) ++ ") \n\t\tVALUES (" ++
      goJoin ", " (saveInsertMarks pm) ++ ") \n\t\tON CONFLICT (" ++
      pm.PrimaryKey ++ ") \n\t\tDO UPDATE\n\t\tSET " ++
      goJoin ", " (saveSetMarks pm) ++ " \n\t\tWHERE " ++
      pm.TableName ++ "." ++ pm.PrimaryKey ++ " = ?")
  else none

/-- `createDeleteQuery(pm)`: note the `WHERE` predicate is qualified with
the table name (`tn`), not the schema name. -/
def createDeleteQuery (pm : PGModel) : String :=
  "DELETE FROM " ++ pm.SchemaName ++ "." ++ pm.TableName ++
    "\n\t\tWHERE " ++ pm.TableName ++ "." ++ pm.PrimaryKey ++ " = ?"

/-- `convertVariable(pm, v, c)`: switches on `reflect.TypeOf(v).Kind()`.
`none` is the panic on a nil interface value (`Kind()` on a nil
`reflect.Type`); the `reflect.Slice` case returns `pm.ConvertSlice(c)`
(a string); the default case returns `v` unchanged. -/
def convertVariable (pm : PGModel) (v : GoValue) (c : String) : Option GoValue :=
  match reflectKind v with
  | none => none
  | some .slice => some (.str (pm.ConvertSlice c))
  | some _ => some v

/-- The loop of `convertVariables`: iterates over the values, pairing index
`i` with `pm.NonPKColumns()[i]`.  When the values outnumber the columns the
Go indexing panics, modelled as `none`. -/
def convertVariablesAux (pm : PGModel) : List GoValue → List String → Option (List GoValue)
  | [], _ => some []
  | v :: vs, c :: cs => do
      let cv ← convertVariable pm v c
      let rest ← convertVariablesAux pm vs cs
      pure (cv :: rest)
  | _ :: _, [] => none

/-- `convertVariables(pm)`: converts every non-primary-key value, in order. -/
def convertVariables (pm : PGModel) : Option (List GoValue) :=
  convertVariablesAux pm pm.NonPKValues pm.NonPKColumns

/-- The parameter list `tv` assembled by `Save`:
`v = [pkv] ++ npkv`, `tv = v ++ npkv ++ [pkv]`.  `none` when a conversion
panics. -/
def saveParams (pm : PGModel) : Option (List GoValue) := do
  let pkv ← convertVariable pm pm.PrimaryKeyValue pm.PrimaryKey
  let npkv ← convertVariables pm
  pure ((pkv :: npkv) ++ npkv ++ [pkv])

/-- The observable outcome of a call to `Save`: either a runtime panic, or
the (SQL text, parameter list) pair handed to `t.Query`. -/
inductive SaveOutcome where
  | panicked : SaveOutcome
  | query : String → List GoValue → SaveOutcome

/-- `Save(pm, t)`: converts the primary-key value, then the non-key values,
then hands `createSaveQuery(pm)` and the assembled parameters to the
executor.  The conversions run (and can panic) before any query string is
built. -/
def Save (pm : PGModel) : SaveOutcome :=
  match saveParams pm with
  | none => .panicked
  | some ps =>
    match createSaveQuery pm with
    | none => .panicked
    | some q => .query q ps

/-- `Get(pm, t, queryKey, queryValue)` hands `t.QueryOne` the get query and
the single bound parameter `queryValue`. -/
def GetCall (pm : PGModel) (queryKey : String) (queryValue : GoValue) :
    String × List GoValue :=
  (createGetQuery pm queryKey queryValue, [queryValue])

/-- `Delete(pm, t)` hands `t.Query` the delete query and the single
parameter `pm.PrimaryKeyValue()` (not marshaled). -/
def DeleteCall (pm : PGModel) : String × List GoValue :=
  (createDeleteQuery pm, [pm.PrimaryKeyValue])

/-- A Go type, as far as `GetMany`'s reflection step needs: slice types,
the `pgmodel.PGModel` interface type, and named concrete types.  A named
type carries `some` descriptor when it implements `PGModel` (the descriptor
its zero value would expose) and `none` otherwise. -/
inductive GoType where
  | sliceOf : GoType → GoType
  | pgModelIface : GoType
  | named : String → Option PGModel → GoType

/-- The unconditional type assertion `.(PGModel)`: yields the asserted
value's descriptor when its dynamic type implements `PGModel`, and panics
(`none`) otherwise.  A slice type has an empty method set in Go, so it
never implements a non-empty interface. -/
def typeAssertPGModel : GoType → Option PGModel
  | .sliceOf _ => none
  | .pgModelIface => none
  | .named _ impl => impl

/-- `reflect.TypeOf(pm)` for the parameter `pm []PGModel` of `GetMany`:
the dynamic type of a non-interface Go value is its static type, so this
is the slice type `[]pgmodel.PGModel`, independent of the elements. -/
def reflectTypeOfModelSlice (_pm : List PGModel) : GoType :=
  .sliceOf .pgModelIface

/-- The observable outcome of a call to `GetMany`: a runtime panic, a
returned error, or the (SQL text, parameter list) pair handed to
`t.Query`. -/
inductive GetManyOutcome where
  | panicked : String → GetManyOutcome
  | errored : String → GetManyOutcome
  | query : String → List GoValue → GetManyOutcome

/-- Whether a `GetMany` outcome is a returned error (as opposed to a panic
or a successful hand-off to the executor). -/
def GetManyOutcome.isErrorReturn : GetManyOutcome → Bool
  | .errored _ => true
  | _ => false

/-- `GetMany(pm, t, queryKey, queryValue)`: the line
`m := reflect.New(reflect.TypeOf(pm)).Elem().Interface().(PGModel)`
allocates a zero value of the slice type `[]PGModel` and asserts it to
`PGModel`.  When the assertion succeeds the function hands the get query
built from `m` to `t.Query`; when it fails Go panics with an interface
conversion error. -/
def GetMany (pm : List PGModel) (queryKey : String) (queryValue : GoValue) :
    GetManyOutcome :=
  match typeAssertPGModel (reflectTypeOfModelSlice pm) with
  | some m => .query (createGetQuery m queryKey queryValue) [queryValue]
  | none => .panicked "interface conversion: []pgmodel.PGModel is not pgmodel.PGModel"

/-- The number of occurrences of the placeholder character `?` in a
string. -/
def countQ (s : String) : Nat := s.data.count '?'

/-- Whitespace for the purpose of comparing SQL text layouts. -/
def isWSChar (c : Char) : Bool := c == ' ' || c == '\n' || c == '\t'

/-- Splits a character list into maximal whitespace-free words;
`acc` holds the current word reversed. -/
def splitWSAux : List Char → List Char → List String
  | [], acc => if acc.isEmpty then [] else [String.mk acc.reverse]
  | c :: cs, acc =>
    if isWSChar c then
      if acc.isEmpty then splitWSAux cs []
      else String.mk acc.reverse :: splitWSAux cs []
    else splitWSAux cs (c :: acc)

/-- Collapses every run of whitespace to a single space and trims the ends:
the SQL template literals span several indented source lines, and the
specification displays the same templates on one line. -/
def normWS (s : String) : String := goJoin " " (splitWSAux s.data [])

/-- The example record of the specification and the repository README:
primary key `id`, non-key columns `[name, value]`, schema `foo`, table
`bars`, three columns in total. -/
def barModel : PGModel where
  PrimaryKey := "id"
  PrimaryKeyValue := GoValue.str "7e57"
  SchemaName := "foo"
  TableName := "bars"
  ColumnCount := 3
  NonPKColumns := ["name", "value"]
  NonPKValues := [GoValue.str "abc", GoValue.int 42]
  ConvertSlice := fun _ => "\x7b\x7d"

/-- A record with a single column (primary key only): the boundary case of
the upsert builder. -/
def soloModel : PGModel where
  PrimaryKey := "id"
  PrimaryKeyValue := GoValue.str "z"
  SchemaName := "foo"
  TableName := "solo"
  ColumnCount := 1
  NonPKColumns := []
  NonPKValues := []
  ConvertSlice := fun _ => ""

/-- A record with one slice-typed non-key column, whose `ConvertSlice`
renders the column `values` as a Postgres array literal. -/
def bazModel : PGModel where
  PrimaryKey := "id"
  PrimaryKeyValue := GoValue.str "k"
  SchemaName := "foo"
  TableName := "bazs"
  ColumnCount := 2
  NonPKColumns := ["values"]
  NonPKValues := [GoValue.slice [GoValue.int 1, GoValue.int 2]]
  ConvertSlice := fun c => if c == "values" then "\x7b0.1,0.2\x7d" else "\x7b\x7d"

/-- A record whose primary-key value and sole non-key value are both the
nil interface value. -/
def nilModel : PGModel where
  PrimaryKey := "id"
  PrimaryKeyValue := GoValue.vnil
  SchemaName := "s"
  TableName := "t"
  ColumnCount := 2
  NonPKColumns := ["a"]
  NonPKValues := [GoValue.vnil]
  ConvertSlice := fun _ => ""

/-! ### Helper lemmas -/

theorem countQ_append (a b : String) : countQ (a ++ b) = countQ a + countQ b := by
  simp [countQ, String.data_append, List.count_append]

theorem countQ_goJoin (sep : String) (hsep : countQ sep = 0) :
    ∀ l : List String, countQ (goJoin sep l) = (l.map countQ).sum
  | [] => by simp [goJoin, countQ]
  | [x] => by simp [goJoin]
  | x :: y :: ys => by
    rw [goJoin, countQ_append, countQ_append, hsep, countQ_goJoin sep hsep (y :: ys)]
    simp [Nat.add_assoc]

theorem sum_map_range_one (f : Nat → Nat) :
    ∀ n : Nat, (∀ i, i < n → f i = 1) → ((List.range n).map f).sum = n
  | 0, _ => by simp
  | n + 1, h => by
    rw [List.range_succ, List.map_append, List.sum_append,
      sum_map_range_one f n (fun i hi => h i (Nat.lt_succ_of_lt hi))]
    simp [h n (Nat.lt_succ_self n)]

theorem convertVariablesAux_length (pm : PGModel) :
    ∀ vs cs ws, convertVariablesAux pm vs cs = some ws → ws.length = vs.length
  | [], cs, ws, h => by
    simp [convertVariablesAux] at h
    simp [← h]
  | v :: vs, [], ws, h => by
    simp [convertVariablesAux] at h
  | v :: vs, c :: cs, ws, h => by
    simp [convertVariablesAux, Option.bind_eq_some] at h
    obtain ⟨cv, hcv, rest, hrest, hws⟩ := h
    simp [← hws, convertVariablesAux_length pm vs cs rest hrest]

theorem convertVariablesAux_getElem (pm : PGModel) :
    ∀ vs cs ws (i : Nat) v c, convertVariablesAux pm vs cs = some ws →
      vs[i]? = some v → cs[i]? = some c → ws[i]? = convertVariable pm v c
  | [], _, _, i, v, c, _, hv, _ => by simp at hv
  | _ :: _, [], _, i, v, c, h, _, _ => by simp [convertVariablesAux] at h
  | x :: vs, y :: cs, ws, i, v, c, h, hv, hc => by
    simp [convertVariablesAux, Option.bind_eq_some] at h
    obtain ⟨cv, hcv, rest, hrest, hws⟩ := h
    cases i with
    | zero =>
      simp at hv hc
      simp [← hws, ← hv, ← hc, hcv]
    | succ j =>
      simp at hv hc
      simp [← hws, convertVariablesAux_getElem pm vs cs rest j v c hrest hv hc]

theorem convertVariablesAux_nil_mem (pm : PGModel) :
    ∀ vs cs, GoValue.vnil ∈ vs → convertVariablesAux pm vs cs = none
  | [], _, h => by simp at h
  | v :: vs, [], _ => rfl
  | v :: vs, c :: cs, h => by
    rcases List.mem_cons.mp h with h1 | h1
    · simp [convertVariablesAux, ← h1, convertVariable, reflectKind]
    · simp [convertVariablesAux, convertVariablesAux_nil_mem pm vs cs h1]

/-! ### Claims -/

/-- C5: for every record and caller-supplied queryKey, the SQL text built
for Get (and by the same builder, GetMany) is
SELECT * FROM schema.table WHERE queryKey = ? with schema, table and
queryKey interpolated verbatim, and the caller-supplied queryValue passed
as the single bound parameter; in the source the raw string literal joins
its two lines with a newline and two tabs, which the one-line rendering of
the specification collapses to a single space.  At the specification's
example record the whitespace-normalized text is exactly
SELECT * FROM foo.bars WHERE id = ?. -/
theorem claim5_get_query_shape (pm : PGModel) (qk : String) (qv : GoValue) :
    GetCall pm qk qv =
      ("SELECT * FROM " ++ pm.SchemaName ++ "." ++ pm.TableName ++
        "\n\t\tWHERE " ++ qk ++ " = ?", [qv]) ∧
    normWS (createGetQuery barModel "id" (GoValue.str "x")) =
      "SELECT * FROM foo.bars WHERE id = ?" :=
  ⟨rfl, by decide⟩

/-- C6: Delete builds DELETE FROM schema.table WHERE table.pk = ? — the
WHERE predicate is qualified with the table name, not the schema name —
and passes exactly one parameter, the record's primary-key value; at the
example record the whitespace-normalized text is exactly
DELETE FROM foo.bars WHERE bars.id = ?. -/
theorem claim6_delete_query_shape (pm : PGModel) :
    DeleteCall pm =
      ("DELETE FROM " ++ pm.SchemaName ++ "." ++ pm.TableName ++
        "\n\t\tWHERE " ++ pm.TableName ++ "." ++ pm.PrimaryKey ++ " = ?",
       [pm.PrimaryKeyValue]) ∧
    normWS (createDeleteQuery barModel) = "DELETE FROM foo.bars WHERE bars.id = ?" :=
  ⟨rfl, by decide⟩

/-- C8: for every value whose runtime kind exists and is not slice, the
marshaler returns the value unchanged (identity law). -/
theorem claim8_scalar_identity (pm : PGModel) (v : GoValue) (c : String) (k : GoKind)
    (hk : reflectKind v = some k) (hns : k ≠ GoKind.slice) :
    convertVariable pm v c = some v := by
  unfold convertVariable
  rw [hk]
  cases k with
  | slice => exact absurd rfl hns
  | string => rfl
  | int => rfl
  | bool => rfl

/-- Witness for C8 at a concrete scalar. -/
theorem claim8_scalar_identity_witness :
    convertVariable barModel (GoValue.int 42) "value" = some (GoValue.int 42) :=
  claim8_scalar_identity barModel (GoValue.int 42) "value" GoKind.int rfl (by decide)

/-- C9: on a record with ColumnCount = 1 and no non-key columns,
createSaveQuery raises no error (the result is `some`) and the DO UPDATE
SET clause is empty: the joined assignment list is the empty string, so
nothing stands between `SET ` and ` WHERE` in the produced text. -/
theorem claim9_single_column_empty_set (pm : PGModel)
    (h1 : pm.ColumnCount = 1) (h2 : pm.NonPKColumns = []) :
    createSaveQuery pm =
      some ("INSERT INTO " ++ pm.SchemaName ++ "." ++ pm.TableName ++ " (" ++
        pm.PrimaryKey ++ ") \n\t\tVALUES (" ++ "?" ++ ") \n\t\tON CONFLICT (" ++
        pm.PrimaryKey ++ ") \n\t\tDO UPDATE\n\t\tSET " ++ "" ++ " \n\t\tWHERE " ++
        pm.TableName ++ "." ++ pm.PrimaryKey ++ " = ?") ∧
    goJoin ", " (saveSetMarks pm) = "" := by
  have hn : saveLoopLen pm = 0 := by simp [saveLoopLen, h1]
  constructor
  · simp [createSaveQuery, hn, h2, saveInsertMarks, saveSetMarks, goJoin]
  · simp [saveSetMarks, hn, goJoin]

/-- Witness for C9 at the single-column record: the syntactically invalid
template is produced silently, with an empty assignment list. -/
theorem claim9_single_column_empty_set_witness :
    createSaveQuery soloModel =
      some "INSERT INTO foo.solo (id) \n\t\tVALUES (?) \n\t\tON CONFLICT (id) \n\t\tDO UPDATE\n\t\tSET  \n\t\tWHERE solo.id = ?" ∧
    goJoin ", " (saveSetMarks soloModel) = "" :=
  claim9_single_column_empty_set soloModel rfl rfl

/-- C10: value marshaling is not total at nil: if the primary-key value or
any non-key value is the nil interface value, `convertVariable` panics
(`reflect.TypeOf` returns nil and `Kind` is called on it), so `Save`
panics before any query is handed to the executor; for every non-nil value
the kind inspection succeeds. -/
theorem claim10_nil_panics (pm : PGModel) :
    (pm.PrimaryKeyValue = GoValue.vnil → Save pm = SaveOutcome.panicked) ∧
    (GoValue.vnil ∈ pm.NonPKValues → Save pm = SaveOutcome.panicked) ∧
    (∀ v : GoValue, v ≠ GoValue.vnil → (reflectKind v).isSome = true) := by
  refine ⟨fun h => ?_, fun h => ?_, fun v hv => ?_⟩
  · simp [Save, saveParams, h, convertVariable, reflectKind]
  · have hnone : convertVariables pm = none :=
      convertVariablesAux_nil_mem pm pm.NonPKValues pm.NonPKColumns h
    cases hpk : convertVariable pm pm.PrimaryKeyValue pm.PrimaryKey with
    | none => simp [Save, saveParams, hpk]
    | some pkv => simp [Save, saveParams, hpk, hnone]
  · cases v with
    | vnil => exact absurd rfl hv
    | str s => rfl
    | int n => rfl
    | bool b => rfl
    | slice l => rfl

/-- Witness for C10 at a record whose primary-key value is nil. -/
theorem claim10_nil_panics_witness : Save nilModel = SaveOutcome.panicked :=
  (claim10_nil_panics nilModel).1 rfl

/-- C2: Save assembles its parameter list as: the (marshaled) primary-key
value first, then the marshaled non-key values in NonPKColumns order (for
the insert values), then the same non-key values repeated in the same
order (for the update clause), then the primary-key value again (for the
conflict-target predicate); the marshaled list is aligned index by index
with NonPKValues / NonPKColumns. -/
theorem claim2_save_param_order (pm : PGModel) (pkv : GoValue) (npkv : List GoValue)
    (hpk : convertVariable pm pm.PrimaryKeyValue pm.PrimaryKey = some pkv)
    (hn : convertVariables pm = some npkv) :
    saveParams pm = some ((pkv :: npkv) ++ npkv ++ [pkv]) ∧
    npkv.length = pm.NonPKValues.length ∧
    (∀ (i : Nat) (v : GoValue) (c : String),
      pm.NonPKValues[i]? = some v → pm.NonPKColumns[i]? = some c →
      npkv[i]? = convertVariable pm v c) := by
  refine ⟨by simp [saveParams, hpk, hn], ?_, fun i v c hv hc => ?_⟩
  · exact convertVariablesAux_length pm pm.NonPKValues pm.NonPKColumns npkv hn
  · exact convertVariablesAux_getElem pm pm.NonPKValues pm.NonPKColumns npkv i v c hn hv hc

/-- Witness for C2 at the example record: pk, name, value, name, value, pk. -/
theorem claim2_save_param_order_witness :
    saveParams barModel =
      some ((GoValue.str "7e57" :: [GoValue.str "abc", GoValue.int 42]) ++
        [GoValue.str "abc", GoValue.int 42] ++ [GoValue.str "7e57"]) :=
  (claim2_save_param_order barModel (GoValue.str "7e57")
    [GoValue.str "abc", GoValue.int 42] rfl rfl).1

/-- C3 counterexample: at the specification's own example record (primary
key id, non-key columns [name, value], schema foo, table bars,
ColumnCount 3) the upsert template does not contain 5 placeholders and the
parameter list does not have length 5. -/
theorem claim3_counterexample :
    (createSaveQuery barModel).map countQ ≠ some 5 ∧
    (saveParams barModel).map List.length ≠ some 5 := by
  refine ⟨?_, ?_⟩ <;> decide

/-- C3 amended: the example record's upsert template contains
3 + 2 + 1 = 6 positional placeholders and the parameter list has length 6,
namely [pk, name, value, name, value, pk]. -/
theorem claim3_amended_upsert :
    (createSaveQuery barModel).map countQ = some 6 ∧
    saveParams barModel = some [GoValue.str "7e57", GoValue.str "abc", GoValue.int 42,
      GoValue.str "abc", GoValue.int 42, GoValue.str "7e57"] ∧
    (saveParams barModel).map List.length = some 6 :=
  ⟨by decide, rfl, by decide⟩

/-- C4 counterexample: even when the collection's elements are records that
satisfy the PGModel contract, GetMany does not return a type-mismatch
error (and does not reach the executor): the unconditional type assertion
of the zero []PGModel value panics. -/
theorem claim4_counterexample :
    (GetMany [barModel] "id" (GoValue.str "x")).isErrorReturn = false ∧
    GetMany [barModel] "id" (GoValue.str "x") =
      GetManyOutcome.panicked "interface conversion: []pgmodel.PGModel is not pgmodel.PGModel" ∧
    (typeAssertPGModel (reflectTypeOfModelSlice [barModel])).isNone = true :=
  ⟨rfl, rfl, rfl⟩

/-- C4 amended: GetMany never introspects the element type: it asserts the
zero value of the slice type []PGModel itself to the PGModel interface,
which can never succeed, so every call panics with an interface-conversion
failure before any query is built or executed. -/
theorem claim4_amended_getmany_panics (pm : List PGModel) (qk : String) (qv : GoValue) :
    GetMany pm qk qv =
      GetManyOutcome.panicked "interface conversion: []pgmodel.PGModel is not pgmodel.PGModel" :=
  rfl

/-- C7: the marshaler's output for a slice-kinded value in column c is the
string the record's own ConvertSlice produces for c; consequently, the
positions of Save's parameter list that correspond to a slice-typed
non-key value (position i+1 in the insert section and position
NonPKValues.length + i + 1 in the update section) hold exactly the
ConvertSlice output for the corresponding column name. -/
theorem claim7_slice_marshaling (pm : PGModel) (v : GoValue) (c : String)
    (l : List GoValue) (i : Nat) (vi : GoValue) (ci : String)
    (hv : reflectKind v = some GoKind.slice)
    (hl : saveParams pm = some l)
    (hvi : pm.NonPKValues[i]? = some vi)
    (hci : pm.NonPKColumns[i]? = some ci)
    (hslice : reflectKind vi = some GoKind.slice) :
    convertVariable pm v c = some (GoValue.str (pm.ConvertSlice c)) ∧
    l[i + 1]? = some (GoValue.str (pm.ConvertSlice ci)) ∧
    l[pm.NonPKValues.length + i + 1]? = some (GoValue.str (pm.ConvertSlice ci)) := by
  have hconv : ∀ w cw, reflectKind w = some GoKind.slice →
      convertVariable pm w cw = some (GoValue.str (pm.ConvertSlice cw)) := by
    intro w cw hw
    unfold convertVariable
    rw [hw]
  obtain ⟨pkv, hpk, npkv, hnp, hl2⟩ : ∃ pkv, convertVariable pm pm.PrimaryKeyValue pm.PrimaryKey = some pkv ∧
      ∃ npkv, convertVariables pm = some npkv ∧ l = (pkv :: npkv) ++ (npkv ++ [pkv]) := by
    simp [saveParams, Option.bind_eq_some] at hl
    obtain ⟨pkv, hpk, npkv, hnp, hl2⟩ := hl
    exact ⟨pkv, hpk, npkv, hnp, hl2.symm⟩
  have hlen : npkv.length = pm.NonPKValues.length :=
    convertVariablesAux_length pm pm.NonPKValues pm.NonPKColumns npkv hnp
  have hi : i < pm.NonPKValues.length := (List.getElem?_eq_some_iff.mp hvi).1
  have hget : npkv[i]? = some (GoValue.str (pm.ConvertSlice ci)) := by
    rw [convertVariablesAux_getElem pm pm.NonPKValues pm.NonPKColumns npkv i vi ci hnp hvi hci]
    exact hconv vi ci hslice
  refine ⟨hconv v c hv, ?_, ?_⟩
  · rw [hl2]
    show ((pkv :: npkv) ++ (npkv ++ [pkv]))[i + 1]? = _
    rw [List.getElem?_append_left (by simp; omega), List.getElem?_cons_succ]
    exact hget
  · rw [hl2]
    show ((pkv :: npkv) ++ (npkv ++ [pkv]))[pm.NonPKValues.length + i + 1]? = _
    rw [List.getElem?_append_right (by simp; omega)]
    rw [List.getElem?_append_left (by simp; omega)]
    have : pm.NonPKValues.length + i + 1 - (pkv :: npkv).length = i := by
      simp only [List.length_cons, hlen]
      omega
    rw [this]
    exact hget

/-- Witness for C7 at a record with one slice-typed column. -/
theorem claim7_slice_marshaling_witness :
    convertVariable bazModel (GoValue.slice []) "values" =
      some (GoValue.str (bazModel.ConvertSlice "values")) ∧
    ((GoValue.str "k" :: [GoValue.str "\x7b0.1,0.2\x7d"]) ++
      [GoValue.str "\x7b0.1,0.2\x7d"] ++ [GoValue.str "k"])[0 + 1]? =
      some (GoValue.str (bazModel.ConvertSlice "values")) ∧
    ((GoValue.str "k" :: [GoValue.str "\x7b0.1,0.2\x7d"]) ++
      [GoValue.str "\x7b0.1,0.2\x7d"] ++ [GoValue.str "k"])[bazModel.NonPKValues.length + 0 + 1]? =
      some (GoValue.str (bazModel.ConvertSlice "values")) :=
  claim7_slice_marshaling bazModel (GoValue.slice []) "values"
    ((GoValue.str "k" :: [GoValue.str "\x7b0.1,0.2\x7d"]) ++
      [GoValue.str "\x7b0.1,0.2\x7d"] ++ [GoValue.str "k"])
    0 (GoValue.slice [GoValue.int 1, GoValue.int 2]) "values" rfl rfl rfl rfl rfl

/-- C1: for every record whose NonPKColumns list has length
ColumnCount - 1 (and whose identifiers, being SQL identifiers, contain no
placeholder character), the upsert text produced by createSaveQuery
contains exactly 2 * ColumnCount placeholder characters:
ColumnCount of them in the joined VALUES list, ColumnCount - 1 in the
joined DO UPDATE SET assignments, and one in the final conflict-target
predicate (accounted for by the closing ` = ?` of the template). -/
theorem claim1_upsert_placeholder_count (pm : PGModel)
    (hlen : (pm.NonPKColumns.length : Int) = pm.ColumnCount - 1)
    (hpk : countQ pm.PrimaryKey = 0) (hsn : countQ pm.SchemaName = 0)
    (htn : countQ pm.TableName = 0)
    (hc : ∀ c ∈ pm.NonPKColumns, countQ c = 0) :
    ∃ s, createSaveQuery pm = some s ∧
      countQ (goJoin ", " (saveInsertMarks pm)) = pm.ColumnCount.toNat ∧
      countQ (goJoin ", " (saveSetMarks pm)) = pm.ColumnCount.toNat - 1 ∧
      countQ s = 2 * pm.ColumnCount.toNat := by
  have hsep : countQ ", " = 0 := by decide
  have h1 : countQ "?" = 1 := by decide
  have h2 : countQ " = ?" = 1 := by decide
  have hcc : pm.ColumnCount = (pm.NonPKColumns.length : Int) + 1 := by omega
  have hln : saveLoopLen pm = pm.NonPKColumns.length := by
    unfold saveLoopLen
    omega
  have htoNat : pm.ColumnCount.toNat = pm.NonPKColumns.length + 1 := by omega
  have hIM : countQ (goJoin ", " (saveInsertMarks pm)) = pm.NonPKColumns.length + 1 := by
    rw [countQ_goJoin _ hsep]
    simp [saveInsertMarks, hln, h1, List.sum_replicate]
    omega
  have hSM : countQ (goJoin ", " (saveSetMarks pm)) = pm.NonPKColumns.length := by
    rw [countQ_goJoin _ hsep]
    rw [saveSetMarks, hln, List.map_map]
    apply sum_map_range_one
    intro i hi
    have hmem : pm.NonPKColumns.getD i "" ∈ pm.NonPKColumns := by
      have hgd : pm.NonPKColumns.getD i "" = pm.NonPKColumns[i] := by
        simp [List.getD_eq_getElem?_getD, List.getElem?_eq_getElem hi]
      rw [hgd]
      exact List.getElem_mem hi
    simp only [Function.comp_apply]
    rw [countQ_append, hc _ hmem, h2]
  have hC : countQ (goJoin ", " (pm.PrimaryKey :: pm.NonPKColumns)) = 0 := by
    rw [countQ_goJoin _ hsep]
    simp only [List.map_cons, List.sum_cons, hpk, Nat.zero_add]
    apply List.sum_eq_zero
    intro x hx
    obtain ⟨c, hcmem, rfl⟩ := List.mem_map.mp hx
    exact hc c hcmem
  have hguard : saveLoopLen pm ≤ pm.NonPKColumns.length := le_of_eq hln
  have l0 : countQ "INSERT INTO " = 0 := by decide
  have l1 : countQ "." = 0 := by decide
  have l2 : countQ " (" = 0 := by decide
  have l3 : countQ ") \n\t\tVALUES (" = 0 := by decide
  have l4 : countQ ") \n\t\tON CONFLICT (" = 0 := by decide
  have l5 : countQ ") \n\t\tDO UPDATE\n\t\tSET " = 0 := by decide
  have l6 : countQ " \n\t\tWHERE " = 0 := by decide
  refine ⟨_, by rw [createSaveQuery, if_pos hguard], by rw [hIM, htoNat],
    by rw [hSM, htoNat]; omega, ?_⟩
  simp only [countQ_append, l0, l1, l2, l3, l4, l5, h2, hC, hIM, hSM, hpk, hsn, htn, l6, htoNat]
  omega

/-- Witness for C1 at the example three-column record. -/
theorem claim1_upsert_placeholder_count_witness :
    ∃ s, createSaveQuery barModel = some s ∧
      countQ (goJoin ", " (saveInsertMarks barModel)) = barModel.ColumnCount.toNat ∧
      countQ (goJoin ", " (saveSetMarks barModel)) = barModel.ColumnCount.toNat - 1 ∧
      countQ s = 2 * barModel.ColumnCount.toNat :=
  claim1_upsert_placeholder_count barModel (by decide) (by decide) (by decide)
    (by decide) (by decide)

end Pgmodel
